import Mathlib

/-!
Verification of the multicall solvers (`ThreePoolCrvMulticall`, `CurveSpellEthMulticall`)
and the detached harvest worker (`04-v2-jobs-work-harvest.ts`) of the hardhat-monorepo
repository, as a shallow embedding in Lean 4.

Every on-chain read (balances, allowances), the price-aggregator quote, and the clock are
inputs supplied through explicit environment records; on-chain writes and off-chain quote
requests are recorded in an action trace; fallible external operations return `Except`.
`BigNumber` values are modelled as `Int` (the usual arbitrary-precision signed integers),
non-negative `uint256` reads as `Nat`; addresses are the literal address strings of the
source.
-/

abbrev Address := String

/-- A pending trade record, as the spec's data model describes it:
{strategy address, tokenIn address, tokenOut address, amount, minAmountOut}.
(The TypeScript type `ExtendedEnabledTrade` is declared outside the provided sources;
its fields are modelled from the spec.) -/
structure Trade where
  strategy : Address
  tokenIn : Address
  tokenOut : Address
  amount : Int
  minAmountOut : Int
deriving DecidableEq

/-- A raw transaction request `{to, data}` as built inside the solvers. -/
structure Tx where
  toAddr : Address
  data : String
deriving DecidableEq

/-- The hardcoded slippage tolerance `10 / 100` passed to every quote request. -/
def slippageTolerance : ℚ := 10 / 100

/-- A request to the zrx price-aggregator client. -/
structure ZrxQuoteRequest where
  chainId : Nat
  sellToken : Address
  buyToken : Address
  sellAmount : Int
  slippagePercentage : ℚ
deriving DecidableEq

/-- The aggregator's answer: swap calldata and the address to approve. -/
structure ZrxQuote where
  data : String
  allowanceTarget : Address
deriving DecidableEq

/-- `constants.MaxUint256` of ethers. -/
def maxUint256 : Int := 2 ^ 256 - 1

/-- Symbolic calldata of the populated (unsent) transactions the solvers build:
one constructor per contract method the source calls via `populateTransaction`,
plus `raw` for the quote calldata that is forwarded verbatim. -/
inductive CallData where
  | removeLiquidityOneCoin (amount i minAmount : Int)
  | approve (spender : Address) (amount : Int)
  | raw (data : String)
  | vaultWithdraw (maxShares : Int) (recipient : Address) (maxLoss : Int)
  | wethWithdraw (amount : Int)
  | addLiquidity (amounts : Int × Int) (minMintAmount : Int) (useEth : Bool) (receiver : Address)
deriving DecidableEq

/-- A populated transaction: target, symbolic calldata and optional attached value. -/
structure PopTx where
  toAddr : Address
  data : CallData
  value : Option Int
deriving DecidableEq

/-- One `(strategy, tokenIn, tokenOut, amount, minAmountOut)` tuple passed to the
trade factory's `execute`. -/
structure TradeDescriptor where
  strategy : Address
  tokenIn : Address
  tokenOut : Address
  amount : Int
  minAmountOut : Int
deriving DecidableEq

/-- The populated `execute` call on the trade factory: either the single-trade or the
multi-trade overload, with the swapper address and the merged payload. -/
inductive ExecuteCall where
  | single (descriptor : TradeDescriptor) (swapper : Address) (payload : List PopTx)
  | multi (descriptors : List TradeDescriptor) (swapper : Address) (payload : List PopTx)
deriving DecidableEq

/-- The solver's result record `{swapperName, transaction}`. -/
structure TradeSetup where
  swapperName : String
  transaction : ExecuteCall
deriving DecidableEq

/-- One step performed while the solver simulates the conversion path against forked
state: token transfers, on-chain calls executed by the swapper, and off-chain quote
requests. -/
inductive SolverAction where
  | transfer (token fromAcct toAcct : Address) (amount : Int)
  | removeLiquidity (pool : Address) (amount i minAmount : Int)
  | quoteRequest (req : ZrxQuoteRequest)
  | approve (token spender : Address) (amount : Int)
  | sendTransaction (tx : Tx)
  | vaultWithdraw (vault : Address) (maxShares : Int) (recipient : Address) (maxLoss : Int)
  | wethWithdraw (token : Address) (amount : Int)
  | addLiquidity (pool : Address) (amounts : Int × Int) (minMintAmount : Int) (useEth : Bool)
      (receiver : Address) (value : Int)
deriving DecidableEq

/-- Modelled from the spec: `mergeTransactions` (scripts/libraries/utils/multicall is not
among the provided sources) encodes an ordered list of (to, data, optional value) into one
payload that the executor contract unpacks and replays in order; since order is significant
and must be preserved exactly, the payload is modelled as the ordered list itself. -/
def mergeTransactions (txs : List PopTx) : List PopTx := txs

/-- The replayable on-chain call corresponding to a simulated action: transfers are
performed by the impersonated strategy (the executor moves the tokens in the real run) and
quote requests are off-chain, so neither is replayed; every call executed by the
multicall swapper maps to the populated transaction with the same target and calldata. -/
def actionToCall : SolverAction → Option PopTx
  | .transfer _ _ _ _ => none
  | .quoteRequest _ => none
  | .removeLiquidity pool amount i minAmount => some ⟨pool, .removeLiquidityOneCoin amount i minAmount, none⟩
  | .approve token spender amount => some ⟨token, .approve spender amount, none⟩
  | .sendTransaction tx => some ⟨tx.toAddr, .raw tx.data, none⟩
  | .vaultWithdraw vault maxShares recipient maxLoss => some ⟨vault, .vaultWithdraw maxShares recipient maxLoss, none⟩
  | .wethWithdraw token amount => some ⟨token, .wethWithdraw amount, none⟩
  | .addLiquidity pool amounts minMint useEth receiver value =>
      some ⟨pool, .addLiquidity amounts minMint useEth receiver, some value⟩

/-- The sequence of replayable on-chain calls executed during a simulation trace. -/
def simulatedCalls (trace : List SolverAction) : List PopTx :=
  trace.filterMap actionToCall

/-- lodash `_.includes(collection, value)` on strings: substring containment. -/
def jsIncludes (collection value : String) : Bool :=
  decide (value.toList <:+: collection.toList)

namespace ThreePoolCrvMulticall

def threeCrv : Address := "0x6c3F90f043a72FA612cbac8115EE7e52BDe6E490"

def yveCrv : Address := "0xc5bDdf9843308380375a611c18B50Fb9341f502A"

def yvBoost : Address := "0x9d409a0A012CFbA9B15F6D4B36Ac57A46966Ab9a"

def strategy : Address := "0x91C3424A608439FBf3A91B6d954aF0577C1B9B8A"

def crv3Pool : Address := "0xbEbc44782C7dB0a1A60Cb6fe97d0b483032FF1C7"

def usdc : Address := "0xA0b86991c6218b36c1d19D4a2e9Eb0cE3606eB48"

def multicallSwapper : Address := "0xceB202F25B50e8fAF212dE3CA6C53512C37a01D2"

def zrxContract : Address := "0xDef1C0ded9bec7F1a1670819833240f027b25EfF"

/-- `match(trade)` of ThreePoolCrvMulticall (renamed, `match` being a Lean keyword):
equality of the trade's triple against the hardcoded addresses. -/
def matchTrade (trade : Trade) : Bool :=
  trade.strategy == strategy && trade.tokenIn == threeCrv && trade.tokenOut == yveCrv

end ThreePoolCrvMulticall

/-- The forked-chain state `ThreePoolCrvMulticall.solve` observes, one field per read site
in source order: the 3crv balance of the trade's strategy, the swapper's USDC balance
before and after `remove_liquidity_one_coin`, the aggregator quote, the swapper's USDC
allowance per spender, and the swapper's yvBOOST and yveCRV balances after the
corresponding steps. -/
structure ThreePoolEnv where
  threeCrvBalanceOf : Address → Nat
  usdcBalancePre : Nat
  usdcBalanceTotal : Nat
  zrxQuote : ZrxQuoteRequest → ZrxQuote
  usdcAllowance : Address → Nat
  yvBoostBalance : Nat
  yveCrvBalance : Nat

/-- What one `ThreePoolCrvMulticall.solve` run produces: the simulated action trace,
the list of populated transactions, the merged payload, and the returned `TradeSetup`. -/
structure ThreePoolResult where
  trace : List SolverAction
  transactions : List PopTx
  data : List PopTx
  setup : TradeSetup

namespace ThreePoolCrvMulticall

/-- `ThreePoolCrvMulticall.solve`, translated line by line: read the 3crv balance,
transfer it to the swapper, remove liquidity, take the before/after USDC delta with the
1-wei dust retention, quote USDC→yvBOOST, approve zrx when the allowance is short,
execute the swap, withdraw from the yvBOOST vault, then rebuild the same legs as
populated transactions and merge them into the trade factory's `execute` call. -/
def solve (env : ThreePoolEnv) (trade : Trade) : ThreePoolResult :=
  let amount : Int := env.threeCrvBalanceOf trade.strategy
  let usdcBalanceDelta : Int := (env.usdcBalanceTotal : Int) - (env.usdcBalancePre : Int)
  let usdcBalance : Int :=
    if (env.usdcBalanceTotal : Int) = usdcBalanceDelta then usdcBalanceDelta - 1 else usdcBalanceDelta
  let quoteReq : ZrxQuoteRequest :=
    { chainId := 1, sellToken := usdc, buyToken := yvBoost,
      sellAmount := usdcBalance, slippagePercentage := slippageTolerance }
  let q := env.zrxQuote quoteReq
  let tx : Tx := ⟨zrxContract, q.data⟩
  let approveUsdc : Bool := (env.usdcAllowance q.allowanceTarget : Int) < usdcBalance
  let trace : List SolverAction :=
    [.transfer threeCrv strategy multicallSwapper amount,
     .removeLiquidity crv3Pool amount 1 0,
     .quoteRequest quoteReq]
    ++ (if approveUsdc then [.approve usdc q.allowanceTarget maxUint256] else [])
    ++ [.sendTransaction tx,
        .vaultWithdraw yvBoost maxUint256 multicallSwapper 0]
  let transactions : List PopTx :=
    [⟨crv3Pool, .removeLiquidityOneCoin amount 1 0, none⟩]
    ++ (if approveUsdc then [⟨usdc, .approve q.allowanceTarget maxUint256, none⟩] else [])
    ++ [⟨zrxContract, .raw q.data, none⟩,
        ⟨yvBoost, .vaultWithdraw maxUint256 strategy 0, none⟩]
  let data := mergeTransactions transactions
  { trace := trace
    transactions := transactions
    data := data
    setup :=
      { swapperName := "ThreePoolCrvMulticall"
        transaction := .single
          { strategy := trade.strategy, tokenIn := trade.tokenIn, tokenOut := trade.tokenOut,
            amount := amount, minAmountOut := (env.yveCrvBalance : Int) }
          multicallSwapper data } }

end ThreePoolCrvMulticall

namespace CurveSpellEthMulticall

def crvSpellEth : Address := "0x8282BD15dcA2EA2bDf24163E8f2781B30C43A2ef"

def strategy : Address := "0xeDB4B647524FC2B9985019190551b197c6AB6C5c"

def curveSwap : Address := "0x98638FAcf9a3865cd033F36548713183f6996122"

def crv : Address := "0xD533a949740bb3306d119CC777fa900bA034cd52"

def cvx : Address := "0x4e3FBD56CD56c3e72c1403e103b45Db9da5B9D2B"

def weth : Address := "0xC02aaA39b223FE8D0A0e5C4F27eAD9083C756Cc2"

def multicallSwapper : Address := "0x7F036fa7B01E7c0286AFd4c7f756dd367E90a5f8"

def zrxContract : Address := "0xDef1C0ded9bec7F1a1670819833240f027b25EfF"

/-- `match(trade)` of CurveSpellEthMulticall (renamed, `match` being a Lean keyword):
strategy equality, lodash `_.includes(trade._tokenIn, crv)` and
`_.includes(trade._tokenIn, cvx)` (containment checks on tokenIn), and tokenOut
equality against crvSpellEth. -/
def matchTrade (trade : Trade) : Bool :=
  trade.strategy == strategy
    && jsIncludes trade.tokenIn crv
    && jsIncludes trade.tokenIn cvx
    && trade.tokenOut == crvSpellEth

end CurveSpellEthMulticall

/-- The forked-chain state `CurveSpellEthMulticall.solve` observes: the strategy's CRV and
CVX balances, the aggregator quotes, the swapper's CRV and CVX allowances per spender
(the source only ever reads the CRV one), and the swapper's WETH balance after both
swaps. -/
structure CurveSpellEthEnv where
  crvBalance : Nat
  cvxBalance : Nat
  zrxQuote : ZrxQuoteRequest → ZrxQuote
  crvAllowance : Address → Nat
  cvxAllowance : Address → Nat
  wethBalance : Nat

/-- What a non-throwing `CurveSpellEthMulticall.solve` run produces. -/
structure CurveSpellEthOutput where
  transactions : List PopTx
  data : List PopTx
  descriptors : List TradeDescriptor
  setup : TradeSetup

namespace CurveSpellEthMulticall

/-- `CurveSpellEthMulticall.solve`, translated line by line: read both balances, throw
`':shrug:'` when both are zero, transfer both to the swapper, swap CRV→WETH and CVX→WETH
via zrx quotes (each with a conditional approval — the source gates BOTH approvals on
`crv.allowance`), unwrap WETH, add liquidity to the curve pool, then rebuild the same
call list as populated transactions and merge them into the trade factory's two-trade
`execute` call.  Returns the simulated action trace (empty when the solve throws before
acting) together with the outcome. -/
def solve (env : CurveSpellEthEnv) (trade : Trade) :
    List SolverAction × Except String CurveSpellEthOutput :=
  let crvBalance := env.crvBalance
  let cvxBalance := env.cvxBalance
  if crvBalance ≤ 0 ∧ cvxBalance ≤ 0 then
    ([], .error ":shrug:")
  else
    let crvReq : ZrxQuoteRequest :=
      { chainId := 1, sellToken := crv, buyToken := weth,
        sellAmount := (crvBalance : Int), slippagePercentage := slippageTolerance }
    let q1 := env.zrxQuote crvReq
    let approveCrv : Bool := (env.crvAllowance q1.allowanceTarget : Int) < (crvBalance : Int)
    let crvToWethTx : Tx := ⟨zrxContract, q1.data⟩
    let cvxReq : ZrxQuoteRequest :=
      { chainId := 1, sellToken := cvx, buyToken := weth,
        sellAmount := (cvxBalance : Int), slippagePercentage := slippageTolerance }
    let q2 := env.zrxQuote cvxReq
    let approveCvx : Bool := (env.crvAllowance q2.allowanceTarget : Int) < (cvxBalance : Int)
    let cvxToWethTx : Tx := ⟨zrxContract, q2.data⟩
    let trace : List SolverAction :=
      [.transfer crv strategy multicallSwapper (crvBalance : Int),
       .transfer cvx strategy multicallSwapper (cvxBalance : Int),
       .quoteRequest crvReq]
      ++ (if approveCrv then [.approve crv q1.allowanceTarget maxUint256] else [])
      ++ [.sendTransaction crvToWethTx,
          .quoteRequest cvxReq]
      ++ (if approveCvx then [.approve cvx q2.allowanceTarget maxUint256] else [])
      ++ [.sendTransaction cvxToWethTx,
          .wethWithdraw weth (env.wethBalance : Int),
          .addLiquidity curveSwap ((env.wethBalance : Int), 0) 0 true strategy (env.wethBalance : Int)]
    let transactions : List PopTx :=
      (if approveCrv then [⟨crv, .approve q1.allowanceTarget maxUint256, none⟩] else [])
      ++ [⟨zrxContract, .raw q1.data, none⟩]
      ++ (if approveCvx then [⟨cvx, .approve q2.allowanceTarget maxUint256, none⟩] else [])
      ++ [⟨zrxContract, .raw q2.data, none⟩,
          ⟨weth, .wethWithdraw (env.wethBalance : Int), none⟩,
          ⟨curveSwap, .addLiquidity ((env.wethBalance : Int), 0) 0 true strategy, some (env.wethBalance : Int)⟩]
    let data := mergeTransactions transactions
    let descriptors : List TradeDescriptor :=
      [{ strategy := strategy, tokenIn := crv, tokenOut := trade.tokenOut,
         amount := (crvBalance : Int), minAmountOut := 0 },
       { strategy := strategy, tokenIn := cvx, tokenOut := trade.tokenOut,
         amount := (cvxBalance : Int), minAmountOut := 0 }]
    (trace, .ok
      { transactions := transactions
        data := data
        descriptors := descriptors
        setup :=
          { swapperName := "CurveSpellEthMulticall"
            transaction := .multi descriptors multicallSwapper data } })

end CurveSpellEthMulticall

/-- Modelled from the spec: a `HarvestConfiguration` entry of
`utils/v2-ftm-strategies` (not among the provided sources) maps a strategy address to
the reward-token addresses whose post-harvest sale should trigger a cooldown. -/
structure HarvestConfiguration where
  address : Address
  tokensBeingDumped : List Address
deriving DecidableEq

/-- One write to the per-reward-token last-dump timestamp map:
(token, value previously present, value stored). -/
structure DumpWrite where
  token : Address
  previous : Option Nat
  stored : Nat
deriving DecidableEq

/-- The four categorized lists printed at the end of a harvest run. -/
structure RunLists where
  worked : List Address
  notWorkable : List Address
  onLiquidityCooldown : List Address
  errorWhileWorked : List Address
deriving DecidableEq

/-- Everything the harvest script observes from outside: the job contract's strategy
list, `lastWorkAt` per strategy, the harvest configurations, the outcomes of the
fallible `workable` / `estimateGas.work` / `work` calls (the gas limit actually passed
to `work` is supplied to the oracle), and the local clock, one value per `moment()`
call in evaluation order. -/
structure HarvestEnv where
  jobStrategies : List Address
  lastWorkAt : Address → Nat
  configs : List HarvestConfiguration
  workable : Address → Except String Bool
  estimateGas : Address → Except String Nat
  work : Address → Nat → Except String String
  clock : Nat → Nat

/-- The state threaded through the harvest loop: how many `moment()` calls happened so
far, the last-dump timestamp map (a JS object, modelled as an association list in key
insertion order), the log of all writes to that map, the log of submitted work
transactions with their gas limits, and the four categorized lists. -/
structure LoopState where
  tick : Nat
  dumpMap : List (Address × Nat)
  writes : List DumpWrite
  workLog : List (Address × Nat)
  lists : RunLists

/-- What a completed (non-aborted) harvest run produces. -/
structure HarvestResult where
  lists : RunLists
  dumpMap : List (Address × Nat)
  writes : List DumpWrite
  workLog : List (Address × Nat)

/-- Lookup in the JS-object model (`lastTimeRewardWasDumped[token]`). -/
def lookupTs : List (Address × Nat) → Address → Option Nat
  | [], _ => none
  | (k, v) :: rest, tok => if k = tok then some v else lookupTs rest tok

/-- Assignment in the JS-object model (`lastTimeRewardWasDumped[token] = ts`). -/
def setTs : List (Address × Nat) → Address → Nat → List (Address × Nat)
  | [], tok, ts => [(tok, ts)]
  | (k, v) :: rest, tok, ts => if k = tok then (k, ts) :: rest else (k, v) :: setTs rest tok ts

/-- The deny-listed strategies (`sbeetStrats`). -/
def sbeetStrats : List Address :=
  ["0xB905eabA7A23424265638bdACFFE55564c7B299B",
   "0x56aF79e182a7f98ff6d0bF99d589ac2CabA24e2d",
   "0x85c307D24da7086c41537b994de9bFc4C21BAEB5",
   "0xBd3791F3Dcf9DD5633cd30662381C80a2Cd945bd",
   "0xbBdc83357287a29Aae30cCa520D4ed6C750a2a11",
   "0x4003eE222d44953B0C3eB61318dD211a4A6f109f",
   "0x36E74086C388305CEcdeff83d6cf31a2762A3c91",
   "0x1c13C43f8F2fa0CdDEE6DFF6F785757650B8c2BF",
   "0xfD7E0cCc4dE0E3022F47834d7f0122274c37a0d1",
   "0x8Bb79E595E1a21d160Ba3f7f6C94efF1484FB4c9"]

/-- `REWARD_DUMPED_COOLDOWN`: `moment.duration('2.5', 'minutes')`, in seconds. -/
def rewardDumpedCooldown : Int := 150

/-- The strategy list the run works on: the job contract's strategies with the
deny-listed ones filtered out (`indexOf === -1`). -/
def filteredStrategies (env : HarvestEnv) : List Address :=
  env.jobStrategies.filter (fun s => !(sbeetStrats.contains s))

/-- JS `String.prototype.toLowerCase`, character by character. -/
def jsToLower (s : String) : String := ⟨s.data.map Char.toLower⟩

/-- `harvestConfigurations.find(c => c.address.toLowerCase() === s.toLowerCase())`. -/
def findConfig (configs : List HarvestConfiguration) (s : Address) : Option HarvestConfiguration :=
  configs.find? (fun c => jsToLower c.address == jsToLower s)

/-- One step of the pre-loop map construction: for one dumped token of one strategy,
store the strategy's `lastWorkAt` when the token is absent from the map or the stored
timestamp is smaller. -/
def recordDump (acc : List (Address × Nat) × List DumpWrite) (tok : Address) (ts : Nat) :
    List (Address × Nat) × List DumpWrite :=
  match lookupTs acc.1 tok with
  | none => (setTs acc.1 tok ts, acc.2 ++ [⟨tok, none, ts⟩])
  | some cur => if cur < ts then (setTs acc.1 tok ts, acc.2 ++ [⟨tok, some cur, ts⟩]) else acc

/-- Processing of one `lastWorksAt` entry in the pre-loop construction: find the
strategy's harvest configuration (throwing the mismatch error when there is none) and
fold `recordDump` over its dumped tokens. -/
def buildEntry (configs : List HarvestConfiguration)
    (acc : List (Address × Nat) × List DumpWrite) (s : Address) (ts : Nat) :
    Except String (List (Address × Nat) × List DumpWrite) :=
  match findConfig configs s with
  | none => .error "Mismatch between harvests configuration and job strategies"
  | some cfg => .ok (cfg.tokensBeingDumped.foldl (fun a t => recordDump a t ts) acc)

/-- The pre-loop `forEach` over the `lastWorksAt` entries: sequential processing, where
a thrown mismatch error aborts the whole construction. -/
def buildList (configs : List HarvestConfiguration) (lwa : Address → Nat) :
    List Address → (List (Address × Nat) × List DumpWrite) →
    Except String (List (Address × Nat) × List DumpWrite)
  | [], acc => .ok acc
  | s :: rest, acc =>
    match buildEntry configs acc s (lwa s) with
    | .error e => .error e
    | .ok acc1 => buildList configs lwa rest acc1

/-- The pre-loop construction of the per-reward-token last-dump timestamp map, over the
filtered strategies and their `lastWorkAt` values. -/
def buildPhase (env : HarvestEnv) : Except String (List (Address × Nat) × List DumpWrite) :=
  buildList env.configs env.lastWorkAt (filteredStrategies env) ([], [])

/-- The per-token cooldown disjunct:
`moment().subtract(REWARD_DUMPED_COOLDOWN).unix() <= lastTimeRewardWasDumped[token]`,
false when the token is absent (comparison against `undefined`). -/
def cooldownStep (env : HarvestEnv) (m : List (Address × Nat)) :
    Bool × Nat → Address → Bool × Nat :=
  fun acc tok =>
    (acc.1 || (match lookupTs m tok with
               | none => false
               | some v => decide ((env.clock acc.2 : Int) - rewardDumpedCooldown ≤ (v : Int))),
     acc.2 + 1)

/-- The `forEach` fold computing `isStratOnLiquidityCooldown`; each token consumes one
`moment()` tick. -/
def cooldownCheck (env : HarvestEnv) (m : List (Address × Nat)) (tokens : List Address)
    (tick : Nat) : Bool × Nat :=
  tokens.foldl (cooldownStep env m) (false, tick)

/-- The `forEach` fold that, after a successful work submission, stores
`moment().unix()` for each of the strategy's dumped tokens; each token consumes one
tick and every store is logged. -/
def dumpUpdate (env : HarvestEnv) (tokens : List Address)
    (acc : List (Address × Nat) × List DumpWrite × Nat) :
    List (Address × Nat) × List DumpWrite × Nat :=
  tokens.foldl
    (fun a tok => (setTs a.1 tok (env.clock a.2.2),
                   a.2.1 ++ [⟨tok, lookupTs a.1 tok, env.clock a.2.2⟩],
                   a.2.2 + 1))
    acc

/-- Appends to the categorized lists. -/
def pushWorked (l : RunLists) (s : Address) : RunLists := { l with worked := l.worked ++ [s] }

def pushNotWorkable (l : RunLists) (s : Address) : RunLists := { l with notWorkable := l.notWorkable ++ [s] }

def pushOnCooldown (l : RunLists) (s : Address) : RunLists := { l with onLiquidityCooldown := l.onLiquidityCooldown ++ [s] }

def pushErrored (l : RunLists) (s : Address) : RunLists := { l with errorWhileWorked := l.errorWhileWorked ++ [s] }

/-- One iteration of the harvest loop, with the per-strategy `try/catch`: a missing
configuration (the non-null assertion dereference), a throwing `workable`,
`estimateGas` or `work` all land the strategy in the errored list and the loop moves
on; otherwise the strategy is categorized as not-workable, on-cooldown, or worked —
in the last case `work` is submitted with gas limit `estimated * 110 / 100` and the
dump timestamps of its configured tokens are set to the current clock. -/
def processStrategy (env : HarvestEnv) (st : LoopState) (s : Address) : LoopState :=
  match findConfig env.configs s with
  | none => { st with lists := pushErrored st.lists s }
  | some cfg =>
    match env.workable s with
    | .error _ => { st with lists := pushErrored st.lists s }
    | .ok false => { st with lists := pushNotWorkable st.lists s }
    | .ok true =>
      let cd := cooldownCheck env st.dumpMap cfg.tokensBeingDumped st.tick
      if cd.1 then
        { st with tick := cd.2, lists := pushOnCooldown st.lists s }
      else
        match env.estimateGas s with
        | .error _ => { st with tick := cd.2, lists := pushErrored st.lists s }
        | .ok gas =>
          let gasLimit := gas * 110 / 100
          match env.work s gasLimit with
          | .error _ => { st with tick := cd.2, lists := pushErrored st.lists s }
          | .ok _ =>
            let upd := dumpUpdate env cfg.tokensBeingDumped (st.dumpMap, st.writes, cd.2)
            { tick := upd.2.2
              dumpMap := upd.1
              writes := upd.2.1
              workLog := st.workLog ++ [(s, gasLimit)]
              lists := pushWorked st.lists s }

/-- The harvest loop over a list of strategies. -/
def harvestLoop (env : HarvestEnv) (st : LoopState) (strategies : List Address) : LoopState :=
  strategies.foldl (processStrategy env) st

/-- The whole `main` of the detached harvest script: build the last-dump map (aborting
the run on a configuration mismatch), then run the loop over the filtered strategies. -/
def harvestMain (env : HarvestEnv) : Except String HarvestResult :=
  match buildPhase env with
  | .error e => .error e
  | .ok (m0, w0) =>
    let final := harvestLoop env ⟨0, m0, w0, [], ⟨[], [], [], []⟩⟩ (filteredStrategies env)
    .ok ⟨final.lists, final.dumpMap, final.writes, final.workLog⟩

/-- An exception is thrown while the loop iteration starting from state `st` processes
strategy `s`: the non-null-asserted configuration lookup fails, `workable` throws, or —
the strategy being workable and not on cooldown — `estimateGas` throws, or `work`
(called with the buffered gas limit) throws. -/
def iterationThrows (env : HarvestEnv) (st : LoopState) (s : Address) : Prop :=
  findConfig env.configs s = none
  ∨ (∃ e, env.workable s = .error e)
  ∨ (∃ cfg, findConfig env.configs s = some cfg
      ∧ env.workable s = .ok true
      ∧ (cooldownCheck env st.dumpMap cfg.tokensBeingDumped st.tick).1 = false
      ∧ ((∃ e, env.estimateGas s = .error e)
         ∨ (∃ gas e, env.estimateGas s = .ok gas
              ∧ env.work s (gas * 110 / 100) = .error e)))

/-- The two-source match predicate exactly as claim C1 words it: the trade's triple must
equal the solver's hardcoded triple — the solver's configured input being one of its two
source tokens — except that tokenOut is checked by membership in a set (here the
solver's output set {crvSpellEth}) rather than by equality. -/
def claimTwoSourceMatch (t : Trade) : Bool :=
  t.strategy == CurveSpellEthMulticall.strategy
    && (t.tokenIn == CurveSpellEthMulticall.crv || t.tokenIn == CurveSpellEthMulticall.cvx)
    && [CurveSpellEthMulticall.crvSpellEth].contains t.tokenOut

/-- The sell amount of the first quote request of a simulation trace. -/
def firstQuoteSellAmount : List SolverAction → Option Int
  | [] => none
  | .quoteRequest req :: _ => some req.sellAmount
  | _ :: rest => firstQuoteSellAmount rest

/-- Maximum of a list of timestamps, `none` on the empty list. -/
def maxTs : List Nat → Option Nat
  | [] => none
  | x :: xs =>
    match maxTs xs with
    | none => some x
    | some m => some (max x m)

/-- Maximum of two optional timestamps. -/
def optMax : Option Nat → Option Nat → Option Nat
  | none, b => b
  | some a, none => some a
  | some a, some b => some (max a b)

/-- Whether a strategy's harvest configuration lists `tok` among its dumped tokens. -/
def dumpsToken (configs : List HarvestConfiguration) (tok s : Address) : Bool :=
  match findConfig configs s with
  | none => false
  | some cfg => cfg.tokensBeingDumped.contains tok

/-- The per-reward-token last-dump timestamp as the claim describes it: the maximum
`lastWorkAt` over all non-deny-listed strategies whose configuration lists the token. -/
def lastDumpSpec (env : HarvestEnv) (tok : Address) : Option Nat :=
  maxTs (((filteredStrategies env).filter (fun s => dumpsToken env.configs tok s)).map env.lastWorkAt)

/-- A map write that never lowers the stored value. -/
def okWrite (ev : DumpWrite) : Prop :=
  ∀ p, ev.previous = some p → p ≤ ev.stored

/-- A generic trade record used to evaluate the solvers on concrete inputs. -/
def tradeW : Trade :=
  { strategy := "0xS", tokenIn := "0xI", tokenOut := "0xO", amount := 0, minAmountOut := 0 }

/-- A concrete forked-state snapshot for `ThreePoolCrvMulticall.solve`. -/
def tpEnvW : ThreePoolEnv :=
  { threeCrvBalanceOf := fun _ => 1000
    usdcBalancePre := 0
    usdcBalanceTotal := 500
    zrxQuote := fun _ => ⟨"0xswapdata", "0xAT"⟩
    usdcAllowance := fun _ => 0
    yvBoostBalance := 5
    yveCrvBalance := 6 }

/-- A concrete forked-state snapshot for `CurveSpellEthMulticall.solve` with both
source balances positive. -/
def cseEnvW : CurveSpellEthEnv :=
  { crvBalance := 40
    cvxBalance := 70
    zrxQuote := fun _ => ⟨"0xswapdata", "0xAT"⟩
    crvAllowance := fun _ => 0
    cvxAllowance := fun _ => 0
    wethBalance := 90 }

/-- A concrete snapshot with both source balances zero. -/
def cseEnvZero : CurveSpellEthEnv :=
  { crvBalance := 0
    cvxBalance := 0
    zrxQuote := fun _ => ⟨"0xswapdata", "0xAT"⟩
    crvAllowance := fun _ => 0
    cvxAllowance := fun _ => 0
    wethBalance := 0 }

/-- A concrete snapshot with a zero CRV balance and a positive CVX balance. -/
def cseEnvZeroCrv : CurveSpellEthEnv :=
  { crvBalance := 0
    cvxBalance := 7
    zrxQuote := fun _ => ⟨"0xswapdata", "0xAT"⟩
    crvAllowance := fun _ => 0
    cvxAllowance := fun _ => 0
    wethBalance := 3 }

/-- A concrete snapshot with a positive CRV balance and a zero CVX balance. -/
def cseEnvZeroCvx : CurveSpellEthEnv :=
  { crvBalance := 7
    cvxBalance := 0
    zrxQuote := fun _ => ⟨"0xswapdata", "0xAT"⟩
    crvAllowance := fun _ => 0
    cvxAllowance := fun _ => 0
    wethBalance := 3 }

/-- A concrete harvest environment: two strategies sharing the dumped token "0xtok"
with `lastWorkAt` values 100 < 200. -/
def hEnvShared : HarvestEnv :=
  { jobStrategies := ["0xa", "0xb"]
    lastWorkAt := fun s => if s = "0xa" then 100 else 200
    configs := [⟨"0xa", ["0xtok"]⟩, ⟨"0xb", ["0xtok"]⟩]
    workable := fun _ => .ok false
    estimateGas := fun _ => .ok 100
    work := fun _ _ => .ok "0xhash"
    clock := fun _ => 1000 }

/-- A concrete harvest environment where `workable` throws for the first strategy,
is false for the second, and is true for the third — whose `estimateGas` then throws. -/
def hEnvErr : HarvestEnv :=
  { jobStrategies := ["0xa", "0xb", "0xd"]
    lastWorkAt := fun _ => 100
    configs := [⟨"0xa", ["0xtok"]⟩, ⟨"0xb", ["0xtok"]⟩, ⟨"0xd", []⟩]
    workable := fun s =>
      if s = "0xa" then .error "boom" else if s = "0xd" then .ok true else .ok false
    estimateGas := fun s => if s = "0xd" then .error "gasboom" else .ok 100
    work := fun _ _ => .ok "0xhash"
    clock := fun _ => 1000 }

/-- The harvest configuration of the single strategy of `hEnvWork`. -/
def cfgWork : HarvestConfiguration := ⟨"0xc", []⟩

/-- A concrete harvest environment with a single workable strategy that is never on
cooldown (it dumps no token) and whose work submission succeeds. -/
def hEnvWork : HarvestEnv :=
  { jobStrategies := ["0xc"]
    lastWorkAt := fun _ => 100
    configs := [cfgWork]
    workable := fun _ => .ok true
    estimateGas := fun _ => .ok 100
    work := fun _ _ => .ok "0xhash"
    clock := fun _ => 1000 }

/-- Total number of occurrences of a strategy across the four categorized lists. -/
def listsCount (l : RunLists) (s : Address) : Nat :=
  l.worked.count s + l.notWorkable.count s + l.onLiquidityCooldown.count s
    + l.errorWhileWorked.count s

theorem curveMatch_iff (t : Trade) :
    CurveSpellEthMulticall.matchTrade t = true ↔
      (t.strategy = CurveSpellEthMulticall.strategy
        ∧ CurveSpellEthMulticall.crv.toList <:+: t.tokenIn.toList
        ∧ CurveSpellEthMulticall.cvx.toList <:+: t.tokenIn.toList
        ∧ t.tokenOut = CurveSpellEthMulticall.crvSpellEth) := by
  simp [CurveSpellEthMulticall.matchTrade, jsIncludes, and_assoc]

theorem curveMatch_length42 (t : Trade) (h : t.tokenIn.length = 42) :
    CurveSpellEthMulticall.matchTrade t = false := by
  by_contra hne
  rw [Bool.not_eq_false] at hne
  obtain ⟨-, h1, h2, -⟩ := (curveMatch_iff t).mp hne
  have hlen : t.tokenIn.toList.length = 42 := h
  have l1 : CurveSpellEthMulticall.crv.toList = t.tokenIn.toList :=
    h1.sublist.eq_of_length (by rw [hlen]; decide)
  have l2 : CurveSpellEthMulticall.cvx.toList = t.tokenIn.toList :=
    h2.sublist.eq_of_length (by rw [hlen]; decide)
  exact absurd (l1.trans l2.symm) (by decide)

/-- Claim C1 (counterexample): the claim describes the two-source variant as comparing
the trade triple for equality except for a tokenOut set-membership check.  On the trade
(strategy, crv, crvSpellEth) — the solver's own hardcoded strategy, one of its two
configured source tokens, and its hardcoded output token — the predicate the claim
describes returns true, but the code's `match` returns false: the code applies its
containment checks to tokenIn (requiring both crv and cvx inside it), not to tokenOut. -/
theorem C1_counterexample :
    claimTwoSourceMatch ⟨CurveSpellEthMulticall.strategy, CurveSpellEthMulticall.crv,
        CurveSpellEthMulticall.crvSpellEth, 0, 0⟩ = true
    ∧ CurveSpellEthMulticall.matchTrade ⟨CurveSpellEthMulticall.strategy,
        CurveSpellEthMulticall.crv, CurveSpellEthMulticall.crvSpellEth, 0, 0⟩ = false :=
  ⟨by decide, by decide⟩

/-- Claim C1 (amended): `ThreePoolCrvMulticall.match` returns true exactly on its
hardcoded (strategy, tokenIn, tokenOut) triple; `CurveSpellEthMulticall.match` checks
tokenOut by plain equality and instead applies lodash containment checks to tokenIn,
requiring both the crv and the cvx address to occur inside it — consequently it returns
false for every trade whose tokenIn is a single 42-character address. -/
theorem C1_match_characterization :
    (∀ t : Trade, ThreePoolCrvMulticall.matchTrade t = true ↔
        (t.strategy = ThreePoolCrvMulticall.strategy
          ∧ t.tokenIn = ThreePoolCrvMulticall.threeCrv
          ∧ t.tokenOut = ThreePoolCrvMulticall.yveCrv))
    ∧ (∀ t : Trade, CurveSpellEthMulticall.matchTrade t = true ↔
        (t.strategy = CurveSpellEthMulticall.strategy
          ∧ CurveSpellEthMulticall.crv.toList <:+: t.tokenIn.toList
          ∧ CurveSpellEthMulticall.cvx.toList <:+: t.tokenIn.toList
          ∧ t.tokenOut = CurveSpellEthMulticall.crvSpellEth))
    ∧ (∀ t : Trade, t.tokenIn.length = 42 → CurveSpellEthMulticall.matchTrade t = false) :=
  ⟨fun t => by simp [ThreePoolCrvMulticall.matchTrade, and_assoc],
   curveMatch_iff,
   curveMatch_length42⟩

/-- Witness for C1: the three-pool solver accepts its exact hardcoded triple, and the
two-source solver rejects a trade whose tokenIn is the (42-character) crv address. -/
theorem C1_witness :
    ThreePoolCrvMulticall.matchTrade ⟨ThreePoolCrvMulticall.strategy,
        ThreePoolCrvMulticall.threeCrv, ThreePoolCrvMulticall.yveCrv, 0, 0⟩ = true
    ∧ CurveSpellEthMulticall.matchTrade ⟨CurveSpellEthMulticall.strategy,
        CurveSpellEthMulticall.crv, "0x8282BD15dcA2EA2bDf24163E8f2781B30C43A2ef", 0, 0⟩ = false :=
  ⟨(C1_match_characterization.1 _).mpr ⟨rfl, rfl, rfl⟩,
   C1_match_characterization.2.2 _ (by decide)⟩

/-- Claim C4: in `ThreePoolCrvMulticall.solve` the sell amount of the USDC→yvBOOST
quote — the intermediate amount of the swap leg — is the before/after delta minus 1
exactly when the post-removal total equals the delta, i.e. when the pre-existing USDC
balance was zero, and the delta unchanged otherwise. -/
theorem C4_dust_retention (env : ThreePoolEnv) (trade : Trade) :
    firstQuoteSellAmount (ThreePoolCrvMulticall.solve env trade).trace
      = some (if env.usdcBalancePre = 0 then (env.usdcBalanceTotal : Int) - 1
              else (env.usdcBalanceTotal : Int) - (env.usdcBalancePre : Int)) := by
  simp only [ThreePoolCrvMulticall.solve, List.cons_append, List.nil_append,
    firstQuoteSellAmount]
  refine congrArg some ?_
  split_ifs <;> omega

/-- Witness for C4: with a zero pre-existing balance the intermediate amount is the
delta minus one. -/
theorem C4_witness :
    tpEnvW.usdcBalancePre = 0
    ∧ firstQuoteSellAmount (ThreePoolCrvMulticall.solve tpEnvW tradeW).trace = some 499 :=
  ⟨rfl, by rw [C4_dust_retention tpEnvW tradeW]; decide⟩

/-- Claim C7: `CurveSpellEthMulticall.solve` throws `':shrug:'` when both the CRV and
the CVX balance are zero, with an empty action trace — no transfer, quote request or
swap is attempted. -/
theorem C7_zero_balance_throws (env : CurveSpellEthEnv) (trade : Trade)
    (h1 : env.crvBalance = 0) (h2 : env.cvxBalance = 0) :
    CurveSpellEthMulticall.solve env trade = ([], .error ":shrug:") := by
  simp only [CurveSpellEthMulticall.solve]
  rw [if_pos ⟨by omega, by omega⟩]

/-- Witness for C7. -/
theorem C7_witness :
    CurveSpellEthMulticall.solve cseEnvZero tradeW = ([], .error ":shrug:") :=
  C7_zero_balance_throws cseEnvZero tradeW rfl rfl

/-- Claim C10: when exactly one of the two source-token balances is zero, the
two-source solve does not throw: it still transfers the zero balance, requests a quote
with sellAmount 0 for the zero-balance token, includes that zero-amount swap leg in the
merged payload, and passes a zero-amount trade descriptor for that token to the
executor — in both the crv-zero and the cvx-zero case. -/
theorem C10_single_zero_leg (env : CurveSpellEthEnv) (trade : Trade) :
    (env.crvBalance = 0 → 0 < env.cvxBalance →
      ∃ trace out, CurveSpellEthMulticall.solve env trade = (trace, .ok out)
        ∧ trace.head? = some (.transfer CurveSpellEthMulticall.crv
              CurveSpellEthMulticall.strategy CurveSpellEthMulticall.multicallSwapper 0)
        ∧ SolverAction.quoteRequest ⟨1, CurveSpellEthMulticall.crv,
              CurveSpellEthMulticall.weth, 0, slippageTolerance⟩ ∈ trace
        ∧ (⟨CurveSpellEthMulticall.zrxContract,
              .raw (env.zrxQuote ⟨1, CurveSpellEthMulticall.crv, CurveSpellEthMulticall.weth,
                0, slippageTolerance⟩).data, none⟩ : PopTx) ∈ out.data
        ∧ out.descriptors = [⟨CurveSpellEthMulticall.strategy, CurveSpellEthMulticall.crv,
              trade.tokenOut, 0, 0⟩,
            ⟨CurveSpellEthMulticall.strategy, CurveSpellEthMulticall.cvx, trade.tokenOut,
              (env.cvxBalance : Int), 0⟩])
    ∧ (env.cvxBalance = 0 → 0 < env.crvBalance →
      ∃ trace out, CurveSpellEthMulticall.solve env trade = (trace, .ok out)
        ∧ trace.get? 1 = some (.transfer CurveSpellEthMulticall.cvx
              CurveSpellEthMulticall.strategy CurveSpellEthMulticall.multicallSwapper 0)
        ∧ SolverAction.quoteRequest ⟨1, CurveSpellEthMulticall.cvx,
              CurveSpellEthMulticall.weth, 0, slippageTolerance⟩ ∈ trace
        ∧ (⟨CurveSpellEthMulticall.zrxContract,
              .raw (env.zrxQuote ⟨1, CurveSpellEthMulticall.cvx, CurveSpellEthMulticall.weth,
                0, slippageTolerance⟩).data, none⟩ : PopTx) ∈ out.data
        ∧ out.descriptors = [⟨CurveSpellEthMulticall.strategy, CurveSpellEthMulticall.crv,
              trade.tokenOut, (env.crvBalance : Int), 0⟩,
            ⟨CurveSpellEthMulticall.strategy, CurveSpellEthMulticall.cvx, trade.tokenOut,
              0, 0⟩]) := by
  constructor
  · intro h1 h2
    have hcond : ¬ (env.crvBalance ≤ 0 ∧ env.cvxBalance ≤ 0) := by omega
    simp only [CurveSpellEthMulticall.solve, if_neg hcond]
    refine ⟨_, _, rfl, ?_, ?_, ?_, ?_⟩
    · simp [h1]
    · simp [h1]
    · simp [h1, mergeTransactions]
    · simp [h1]
  · intro h1 h2
    have hcond : ¬ (env.crvBalance ≤ 0 ∧ env.cvxBalance ≤ 0) := by omega
    simp only [CurveSpellEthMulticall.solve, if_neg hcond]
    refine ⟨_, _, rfl, ?_, ?_, ?_, ?_⟩
    · simp [h1, List.get?]
    · simp [h1]
    · simp [h1, mergeTransactions]
    · simp [h1]

/-- Witness for C10: both asymmetric cases on concrete snapshots — crv zero with cvx
positive, and cvx zero with crv positive. -/
theorem C10_witness :
    (0 < cseEnvZeroCrv.cvxBalance
    ∧ (∃ trace out, CurveSpellEthMulticall.solve cseEnvZeroCrv tradeW = (trace, .ok out)
      ∧ trace.head? = some (.transfer CurveSpellEthMulticall.crv CurveSpellEthMulticall.strategy
            CurveSpellEthMulticall.multicallSwapper 0)
      ∧ SolverAction.quoteRequest ⟨1, CurveSpellEthMulticall.crv, CurveSpellEthMulticall.weth, 0,
            slippageTolerance⟩ ∈ trace
      ∧ (⟨CurveSpellEthMulticall.zrxContract,
            .raw (cseEnvZeroCrv.zrxQuote ⟨1, CurveSpellEthMulticall.crv,
              CurveSpellEthMulticall.weth, 0, slippageTolerance⟩).data, none⟩ : PopTx) ∈ out.data
      ∧ out.descriptors = [⟨CurveSpellEthMulticall.strategy, CurveSpellEthMulticall.crv,
            tradeW.tokenOut, 0, 0⟩,
          ⟨CurveSpellEthMulticall.strategy, CurveSpellEthMulticall.cvx, tradeW.tokenOut,
            (cseEnvZeroCrv.cvxBalance : Int), 0⟩]))
    ∧ (0 < cseEnvZeroCvx.crvBalance
    ∧ (∃ trace out, CurveSpellEthMulticall.solve cseEnvZeroCvx tradeW = (trace, .ok out)
      ∧ trace.get? 1 = some (.transfer CurveSpellEthMulticall.cvx CurveSpellEthMulticall.strategy
            CurveSpellEthMulticall.multicallSwapper 0)
      ∧ SolverAction.quoteRequest ⟨1, CurveSpellEthMulticall.cvx, CurveSpellEthMulticall.weth, 0,
            slippageTolerance⟩ ∈ trace
      ∧ (⟨CurveSpellEthMulticall.zrxContract,
            .raw (cseEnvZeroCvx.zrxQuote ⟨1, CurveSpellEthMulticall.cvx,
              CurveSpellEthMulticall.weth, 0, slippageTolerance⟩).data, none⟩ : PopTx) ∈ out.data
      ∧ out.descriptors = [⟨CurveSpellEthMulticall.strategy, CurveSpellEthMulticall.crv,
            tradeW.tokenOut, (cseEnvZeroCvx.crvBalance : Int), 0⟩,
          ⟨CurveSpellEthMulticall.strategy, CurveSpellEthMulticall.cvx, tradeW.tokenOut,
            0, 0⟩])) :=
  ⟨⟨by decide, (C10_single_zero_leg cseEnvZeroCrv tradeW).1 rfl (by decide)⟩,
   ⟨by decide, (C10_single_zero_leg cseEnvZeroCvx tradeW).2 rfl (by decide)⟩⟩

set_option maxRecDepth 4000 in
/-- Claim C3 (counterexample): on the concrete snapshot `tpEnvW` the merged payload is
not the simulated call sequence — the final vault withdrawal is simulated with the
multicall swapper as recipient but replayed with the strategy as recipient. -/
theorem C3_counterexample :
    (ThreePoolCrvMulticall.solve tpEnvW tradeW).data
      ≠ simulatedCalls (ThreePoolCrvMulticall.solve tpEnvW tradeW).trace := by
  decide

/-- Claim C3 (amended): for the two-source solver the merged payload is exactly the
simulated call sequence (targets, calldata and order); for the three-pool solver it is
the simulated call sequence except that the final vault withdrawal's recipient is the
multicall swapper in simulation but the strategy in the replayed payload. -/
theorem C3_payload_vs_simulation :
    (∀ (env : CurveSpellEthEnv) (trade : Trade) trace out,
        CurveSpellEthMulticall.solve env trade = (trace, .ok out) →
        out.data = simulatedCalls trace)
    ∧ (∀ (env : ThreePoolEnv) (trade : Trade),
        (ThreePoolCrvMulticall.solve env trade).data
          = (simulatedCalls (ThreePoolCrvMulticall.solve env trade).trace).dropLast
            ++ [⟨ThreePoolCrvMulticall.yvBoost,
                  .vaultWithdraw maxUint256 ThreePoolCrvMulticall.strategy 0, none⟩]) := by
  constructor
  · intro env trade trace out h
    by_cases h0 : env.crvBalance ≤ 0 ∧ env.cvxBalance ≤ 0
    · rw [CurveSpellEthMulticall.solve, if_pos h0] at h
      exact absurd h (by simp)
    · rw [CurveSpellEthMulticall.solve, if_neg h0] at h
      injection h with h1 h2
      injection h2 with h2
      subst h1
      subst h2
      simp only [simulatedCalls, mergeTransactions]
      split <;> split <;> simp [actionToCall]
  · intro env trade
    simp only [ThreePoolCrvMulticall.solve, mergeTransactions, simulatedCalls]
    split <;> split <;> simp [actionToCall, List.dropLast]

/-- Witness for C3: on a concrete snapshot with both balances positive, the two-source
payload equals the simulated call sequence. -/
theorem C3_witness :
    ∃ trace out, CurveSpellEthMulticall.solve cseEnvW tradeW = (trace, .ok out)
      ∧ out.data = simulatedCalls trace :=
  ⟨_, _, rfl, C3_payload_vs_simulation.1 cseEnvW tradeW _ _ rfl⟩

theorem optMax_assoc (a b c : Option Nat) :
    optMax (optMax a b) c = optMax a (optMax b c) := by
  cases a <;> cases b <;> cases c <;> simp [optMax, Nat.max_assoc]

theorem optMax_some_idem (x : Option Nat) (ts : Nat) :
    optMax (optMax x (some ts)) (some ts) = optMax x (some ts) := by
  cases x <;> simp [optMax, Nat.max_assoc]

theorem maxTs_cons (x : Nat) (xs : List Nat) :
    maxTs (x :: xs) = optMax (some x) (maxTs xs) := by
  cases h : maxTs xs <;> simp [maxTs, optMax, h]

theorem lookupTs_setTs (m : List (Address × Nat)) (k tok : Address) (v : Nat) :
    lookupTs (setTs m k v) tok = if k = tok then some v else lookupTs m tok := by
  induction m with
  | nil => simp [setTs, lookupTs]
  | cons p rest ih =>
    obtain ⟨k', v'⟩ := p
    simp only [setTs]
    by_cases h1 : k' = k <;> by_cases h2 : k' = tok <;> by_cases h3 : k = tok <;>
      simp_all [lookupTs]

theorem lookupTs_recordDump (acc : List (Address × Nat) × List DumpWrite) (t tok : Address)
    (ts : Nat) :
    lookupTs (recordDump acc t ts).1 tok
      = if t = tok then optMax (lookupTs acc.1 tok) (some ts) else lookupTs acc.1 tok := by
  unfold recordDump
  rcases h : lookupTs acc.1 t with _ | cur
  · by_cases ht : t = tok
    · subst ht; simp [h, lookupTs_setTs, optMax]
    · simp [h, lookupTs_setTs, ht]
  · by_cases hlt : cur < ts
    · by_cases ht : t = tok
      · subst ht; simp [h, hlt, lookupTs_setTs, optMax, Nat.max_eq_right (le_of_lt hlt)]
      · simp [h, hlt, lookupTs_setTs, ht]
    · by_cases ht : t = tok
      · subst ht; simp [h, hlt, optMax, Nat.max_eq_left (le_of_not_lt hlt)]
      · simp [h, hlt, ht]

theorem lookupTs_dumpFold (tokens : List Address) (acc : List (Address × Nat) × List DumpWrite)
    (ts : Nat) (tok : Address) :
    lookupTs (tokens.foldl (fun a t => recordDump a t ts) acc).1 tok
      = if tok ∈ tokens then optMax (lookupTs acc.1 tok) (some ts) else lookupTs acc.1 tok := by
  induction tokens generalizing acc with
  | nil => simp
  | cons t rest ih =>
    rw [List.foldl_cons, ih]
    by_cases h2 : tok ∈ rest
    · rw [if_pos h2, if_pos (List.mem_cons.mpr (Or.inr h2)), lookupTs_recordDump]
      by_cases h1 : t = tok
      · rw [if_pos h1, optMax_some_idem]
      · rw [if_neg h1]
    · rw [if_neg h2, lookupTs_recordDump]
      by_cases h1 : t = tok
      · rw [if_pos h1, if_pos (h1 ▸ List.mem_cons_self t rest)]
      · rw [if_neg h1, if_neg (by simp [List.mem_cons, h2]; exact fun hx => absurd hx.symm h1)]

theorem buildList_ok_lookup (configs : List HarvestConfiguration) (lwa : Address → Nat)
    (l : List Address) (acc : List (Address × Nat) × List DumpWrite)
    (res : List (Address × Nat) × List DumpWrite)
    (h : buildList configs lwa l acc = .ok res) (tok : Address) :
    lookupTs res.1 tok
      = optMax (lookupTs acc.1 tok)
          (maxTs ((l.filter (fun s => dumpsToken configs tok s)).map lwa)) := by
  induction l generalizing acc with
  | nil =>
    simp only [buildList] at h
    injection h with h
    subst h
    cases hx : lookupTs acc.1 tok <;> simp [maxTs, optMax]
  | cons s rest ih =>
    simp only [buildList] at h
    rcases hc : buildEntry configs acc s (lwa s) with e | acc1
    · rw [hc] at h; exact absurd h (by simp)
    · rw [hc] at h
      have ih' := ih acc1 h
      unfold buildEntry at hc
      rcases hf : findConfig configs s with _ | cfg
      · rw [hf] at hc; exact absurd hc (by simp)
      · rw [hf] at hc
        injection hc with hc
        rw [ih', ← hc, lookupTs_dumpFold]
        by_cases hd : tok ∈ cfg.tokensBeingDumped
        · have hds : dumpsToken configs tok s = true := by
            simp [dumpsToken, hf]
            exact hd
          rw [if_pos hd]
          simp only [List.filter_cons, hds, if_true, List.map_cons, maxTs_cons]
          exact optMax_assoc _ _ _
        · have hds : dumpsToken configs tok s = false := by
            simp [dumpsToken, hf]
            exact hd
          rw [if_neg hd]
          simp [List.filter_cons, hds]

/-- Claim C5: after a successful pre-loop construction, the last-dump timestamp map
holds, for every reward token, the maximum `lastWorkAt` over all non-deny-listed
strategies whose configuration lists that token as being dumped (and no entry at all for
tokens no such strategy dumps).  In particular, for two strategies sharing a dumped
token with `lastWorkAt` values T1 < T2, the stored timestamp is T2. -/
theorem C5_lastDump_max (env : HarvestEnv) (m : List (Address × Nat)) (w : List DumpWrite)
    (h : buildPhase env = .ok (m, w)) (tok : Address) :
    lookupTs m tok = lastDumpSpec env tok := by
  have hx := buildList_ok_lookup env.configs env.lastWorkAt (filteredStrategies env)
    ([], []) (m, w) h tok
  simpa [lastDumpSpec, lookupTs, optMax] using hx

/-- Witness for C5: two strategies share the dumped token "0xtok" with `lastWorkAt`
values 100 < 200; the built map stores 200 for it. -/
theorem C5_witness :
    ∃ m w, buildPhase hEnvShared = .ok (m, w)
      ∧ lookupTs m "0xtok" = lastDumpSpec hEnvShared "0xtok"
      ∧ lookupTs m "0xtok" = some 200 :=
  ⟨_, _, rfl, C5_lastDump_max hEnvShared _ _ rfl "0xtok", by decide⟩

theorem buildList_error_msg (configs : List HarvestConfiguration) (lwa : Address → Nat)
    (l : List Address) (acc : List (Address × Nat) × List DumpWrite) (e : String)
    (h : buildList configs lwa l acc = .error e) :
    e = "Mismatch between harvests configuration and job strategies" := by
  induction l generalizing acc with
  | nil => exact absurd h (by simp [buildList])
  | cons s rest ih =>
    simp only [buildList] at h
    rcases hc : buildEntry configs acc s (lwa s) with e' | acc1
    · rw [hc] at h
      injection h with h
      subst h
      unfold buildEntry at hc
      rcases hf : findConfig configs s with _ | cfg
      · rw [hf] at hc; injection hc with hc; exact hc.symm
      · rw [hf] at hc; exact absurd hc (by simp)
    · rw [hc] at h
      exact ih acc1 h

theorem buildList_error_missing (configs : List HarvestConfiguration) (lwa : Address → Nat)
    (l : List Address) (acc : List (Address × Nat) × List DumpWrite) (e : String)
    (h : buildList configs lwa l acc = .error e) :
    ∃ s ∈ l, findConfig configs s = none := by
  induction l generalizing acc with
  | nil => exact absurd h (by simp [buildList])
  | cons s rest ih =>
    simp only [buildList] at h
    rcases hc : buildEntry configs acc s (lwa s) with e' | acc1
    · unfold buildEntry at hc
      rcases hf : findConfig configs s with _ | cfg
      · exact ⟨s, List.mem_cons_self s rest, hf⟩
      · rw [hf] at hc; exact absurd hc (by simp)
    · rw [hc] at h
      obtain ⟨t, ht, hn⟩ := ih acc1 h
      exact ⟨t, List.mem_cons_of_mem s ht, hn⟩

theorem buildList_missing_error (configs : List HarvestConfiguration) (lwa : Address → Nat)
    (l : List Address) (acc : List (Address × Nat) × List DumpWrite)
    (h : ∃ s ∈ l, findConfig configs s = none) :
    buildList configs lwa l acc
      = .error "Mismatch between harvests configuration and job strategies" := by
  induction l generalizing acc with
  | nil => simp at h
  | cons s rest ih =>
    obtain ⟨t, ht, hn⟩ := h
    simp only [buildList]
    rcases hc : buildEntry configs acc s (lwa s) with e' | acc1
    · unfold buildEntry at hc
      rcases hf : findConfig configs s with _ | cfg
      · rw [hf] at hc; injection hc with hc; rw [hc]
      · rw [hf] at hc; exact absurd hc (by simp)
    · rcases List.mem_cons.mp ht with rfl | ht'
      · unfold buildEntry at hc
        rw [hn] at hc
        exact absurd hc (by simp)
      · exact ih acc1 ⟨t, ht', hn⟩

/-- Every loop iteration produces one of four outcomes: the strategy is pushed to
exactly one categorized list, and only the worked outcome touches the timestamp map,
the write log and the work log. -/
theorem processStrategy_shape (env : HarvestEnv) (st : LoopState) (t : Address) :
    (∃ tk, processStrategy env st t
        = ⟨tk, st.dumpMap, st.writes, st.workLog, pushErrored st.lists t⟩)
    ∨ (processStrategy env st t
        = ⟨st.tick, st.dumpMap, st.writes, st.workLog, pushNotWorkable st.lists t⟩)
    ∨ (∃ tk, processStrategy env st t
        = ⟨tk, st.dumpMap, st.writes, st.workLog, pushOnCooldown st.lists t⟩)
    ∨ (∃ cfg gas, findConfig env.configs t = some cfg
        ∧ env.estimateGas t = .ok gas
        ∧ (cooldownCheck env st.dumpMap cfg.tokensBeingDumped st.tick).1 = false
        ∧ processStrategy env st t
            = ⟨(dumpUpdate env cfg.tokensBeingDumped (st.dumpMap, st.writes,
                  (cooldownCheck env st.dumpMap cfg.tokensBeingDumped st.tick).2)).2.2,
               (dumpUpdate env cfg.tokensBeingDumped (st.dumpMap, st.writes,
                  (cooldownCheck env st.dumpMap cfg.tokensBeingDumped st.tick).2)).1,
               (dumpUpdate env cfg.tokensBeingDumped (st.dumpMap, st.writes,
                  (cooldownCheck env st.dumpMap cfg.tokensBeingDumped st.tick).2)).2.1,
               st.workLog ++ [(t, gas * 110 / 100)],
               pushWorked st.lists t⟩) := by
  unfold processStrategy
  rcases hf : findConfig env.configs t with _ | cfg
  · exact Or.inl ⟨st.tick, rfl⟩
  · rcases hw : env.workable t with e | b
    · exact Or.inl ⟨st.tick, rfl⟩
    · cases b
      · exact Or.inr (Or.inl rfl)
      · dsimp only
        by_cases hcd : (cooldownCheck env st.dumpMap cfg.tokensBeingDumped st.tick).1 = true
        · rw [if_pos hcd]
          exact Or.inr (Or.inr (Or.inl ⟨_, rfl⟩))
        · rw [if_neg hcd]
          rcases hg : env.estimateGas t with e | gas
          · exact Or.inl ⟨_, rfl⟩
          · dsimp only
            rcases hwk : env.work t (gas * 110 / 100) with e | tx
            · exact Or.inl ⟨_, rfl⟩
            · exact Or.inr (Or.inr (Or.inr
                ⟨cfg, gas, rfl, rfl, by simpa using hcd, rfl⟩))

theorem listsCount_pushWorked (l : RunLists) (t s : Address) :
    listsCount (pushWorked l t) s = listsCount l s + (if t == s then 1 else 0) := by
  simp [listsCount, pushWorked, List.count_append, List.count_cons]
  split <;> omega

theorem listsCount_pushNotWorkable (l : RunLists) (t s : Address) :
    listsCount (pushNotWorkable l t) s = listsCount l s + (if t == s then 1 else 0) := by
  simp [listsCount, pushNotWorkable, List.count_append, List.count_cons]
  split <;> omega

theorem listsCount_pushOnCooldown (l : RunLists) (t s : Address) :
    listsCount (pushOnCooldown l t) s = listsCount l s + (if t == s then 1 else 0) := by
  simp [listsCount, pushOnCooldown, List.count_append, List.count_cons]
  split <;> omega

theorem listsCount_pushErrored (l : RunLists) (t s : Address) :
    listsCount (pushErrored l t) s = listsCount l s + (if t == s then 1 else 0) := by
  simp [listsCount, pushErrored, List.count_append, List.count_cons]
  split <;> omega

theorem processStrategy_listsCount (env : HarvestEnv) (st : LoopState) (t s : Address) :
    listsCount (processStrategy env st t).lists s
      = listsCount st.lists s + (if t == s then 1 else 0) := by
  rcases processStrategy_shape env st t with ⟨tk, h⟩ | h | ⟨tk, h⟩ | ⟨cfg, gas, _, _, _, h⟩ <;>
    rw [h]
  · exact listsCount_pushErrored st.lists t s
  · exact listsCount_pushNotWorkable st.lists t s
  · exact listsCount_pushOnCooldown st.lists t s
  · exact listsCount_pushWorked st.lists t s

theorem harvestLoop_listsCount (env : HarvestEnv) (l : List Address) (st : LoopState)
    (s : Address) :
    listsCount (harvestLoop env st l).lists s = listsCount st.lists s + l.count s := by
  induction l generalizing st with
  | nil => simp [harvestLoop]
  | cons t rest ih =>
    show listsCount (harvestLoop env (processStrategy env st t) rest).lists s = _
    rw [ih, processStrategy_listsCount, List.count_cons]
    split <;> omega

theorem processStrategy_errored_mono (env : HarvestEnv) (st : LoopState) (t s : Address)
    (h : s ∈ st.lists.errorWhileWorked) :
    s ∈ (processStrategy env st t).lists.errorWhileWorked := by
  rcases processStrategy_shape env st t with ⟨tk, hp⟩ | hp | ⟨tk, hp⟩ | ⟨cfg, gas, _, _, _, hp⟩ <;>
    rw [hp] <;>
    simp [pushWorked, pushNotWorkable, pushOnCooldown, pushErrored, h]

theorem harvestLoop_errored_mono (env : HarvestEnv) (l : List Address) (st : LoopState)
    (s : Address) (h : s ∈ st.lists.errorWhileWorked) :
    s ∈ (harvestLoop env st l).lists.errorWhileWorked := by
  induction l generalizing st with
  | nil => exact h
  | cons t rest ih =>
    exact ih (processStrategy env st t) (processStrategy_errored_mono env st t s h)

theorem processStrategy_workable_error (env : HarvestEnv) (st : LoopState) (s : Address)
    (e : String) (he : env.workable s = .error e) :
    s ∈ (processStrategy env st s).lists.errorWhileWorked := by
  unfold processStrategy
  rcases hf : findConfig env.configs s with _ | cfg
  · simp [pushErrored]
  · simp only [he]
    simp [pushErrored]

theorem harvestLoop_workable_error (env : HarvestEnv) (l : List Address) (st : LoopState)
    (s : Address) (hs : s ∈ l) (e : String) (he : env.workable s = .error e) :
    s ∈ (harvestLoop env st l).lists.errorWhileWorked := by
  induction l generalizing st with
  | nil => simp at hs
  | cons t rest ih =>
    show s ∈ (harvestLoop env (processStrategy env st t) rest).lists.errorWhileWorked
    rcases List.mem_cons.mp hs with rfl | hs'
    · exact harvestLoop_errored_mono env rest _ s
        (processStrategy_workable_error env st s e he)
    · exact ih _ hs'

theorem processStrategy_throws (env : HarvestEnv) (st : LoopState) (s : Address)
    (h : iterationThrows env st s) :
    s ∈ (processStrategy env st s).lists.errorWhileWorked := by
  rcases h with hf | ⟨e, he⟩ | ⟨cfg, hcfg, hwork, hcd, ⟨e, he⟩ | ⟨gas, e, hgas, hwk⟩⟩
  · simp [processStrategy, hf, pushErrored]
  · exact processStrategy_workable_error env st s e he
  · simp [processStrategy, hcfg, hwork, hcd, he, pushErrored]
  · simp [processStrategy, hcfg, hwork, hcd, hgas, hwk, pushErrored]

/-- Claim C6: the harvest run aborts with the mismatch error exactly when some
non-deny-listed strategy returned by the job contract has no harvest configuration;
on a completed run every strategy occurrence is accounted for in exactly one of the four
categorized lists (so a per-strategy exception never aborts the remaining strategies),
a strategy whose `workable` call throws lands in the errored list, and more generally
any exception thrown while one strategy is processed — missing in-loop configuration, a
throwing `workable`, or (when workable and not on cooldown) a throwing `estimateGas` or
`work` — lands that strategy in the errored list. -/
theorem C6_error_policy (env : HarvestEnv) :
    (harvestMain env = .error "Mismatch between harvests configuration and job strategies"
        ↔ ∃ s ∈ filteredStrategies env, findConfig env.configs s = none)
    ∧ ∀ r, harvestMain env = .ok r →
        (∀ s, (filteredStrategies env).count s
            = r.lists.worked.count s + r.lists.notWorkable.count s
              + r.lists.onLiquidityCooldown.count s + r.lists.errorWhileWorked.count s)
        ∧ (∀ s ∈ filteredStrategies env, (∃ e, env.workable s = .error e) →
            s ∈ r.lists.errorWhileWorked)
        ∧ ∀ mb wb, buildPhase env = .ok (mb, wb) →
            ∀ l1 s l2, filteredStrategies env = l1 ++ s :: l2 →
              iterationThrows env (harvestLoop env ⟨0, mb, wb, [], ⟨[], [], [], []⟩⟩ l1) s →
              s ∈ r.lists.errorWhileWorked := by
  constructor
  · constructor
    · intro h
      rcases hb : buildPhase env with e | p
      · exact buildList_error_missing env.configs env.lastWorkAt (filteredStrategies env)
          ([], []) e hb
      · simp only [harvestMain, hb] at h
        exact Except.noConfusion h
    · intro hmiss
      have hb : buildPhase env
          = .error "Mismatch between harvests configuration and job strategies" :=
        buildList_missing_error env.configs env.lastWorkAt (filteredStrategies env)
          ([], []) hmiss
      simp only [harvestMain, hb]
  · intro r hr
    rcases hb : buildPhase env with e | ⟨m0, w0⟩
    · simp only [harvestMain, hb] at hr
      exact Except.noConfusion hr
    · simp only [harvestMain, hb] at hr
      injection hr with hr
      subst hr
      refine ⟨?_, ?_, ?_⟩
      · intro s
        have hcount := harvestLoop_listsCount env (filteredStrategies env)
          ⟨0, m0, w0, [], ⟨[], [], [], []⟩⟩ s
        simp only [listsCount, List.count_nil] at hcount
        simpa [listsCount] using hcount.symm
      · rintro s hs ⟨e, he⟩
        exact harvestLoop_workable_error env (filteredStrategies env) _ s hs e he
      · intro mb wb hb2 l1 s l2 hsplit hthrow
        injection hb2 with hb2
        injection hb2 with e1 e2
        subst e1
        subst e2
        have hloop : harvestLoop env ⟨0, m0, w0, [], ⟨[], [], [], []⟩⟩ (filteredStrategies env)
            = harvestLoop env
                (processStrategy env
                  (harvestLoop env ⟨0, m0, w0, [], ⟨[], [], [], []⟩⟩ l1) s) l2 := by
          rw [hsplit]
          show List.foldl _ _ (l1 ++ s :: l2) = _
          rw [List.foldl_append, List.foldl_cons]
          rfl
        show s ∈ (harvestLoop env ⟨0, m0, w0, [], ⟨[], [], [], []⟩⟩
            (filteredStrategies env)).lists.errorWhileWorked
        rw [hloop]
        exact harvestLoop_errored_mono env l2 _ s (processStrategy_throws env _ s hthrow)

/-- Witness for C6: strategy "0xa" (whose `workable` throws) and strategy "0xd" (whose
`estimateGas` throws after `workable` returned true) are both recorded in the errored
list, strategy "0xb" is still processed, and every strategy lands in exactly one list. -/
theorem C6_witness :
    ∃ r, harvestMain hEnvErr = .ok r
      ∧ (filteredStrategies hEnvErr).count "0xa"
          = r.lists.worked.count "0xa" + r.lists.notWorkable.count "0xa"
            + r.lists.onLiquidityCooldown.count "0xa" + r.lists.errorWhileWorked.count "0xa"
      ∧ "0xa" ∈ r.lists.errorWhileWorked
      ∧ "0xb" ∈ r.lists.notWorkable
      ∧ "0xd" ∈ r.lists.errorWhileWorked :=
  ⟨_, rfl, ((C6_error_policy hEnvErr).2 _ rfl).1 "0xa",
    ((C6_error_policy hEnvErr).2 _ rfl).2.1 "0xa" (by decide) ⟨"boom", rfl⟩,
    by decide,
    ((C6_error_policy hEnvErr).2 _ rfl).2.2 _ _ rfl ["0xa", "0xb"] "0xd" [] (by decide)
      (Or.inr (Or.inr ⟨⟨"0xd", []⟩, rfl, rfl, rfl, Or.inl ⟨"gasboom", rfl⟩⟩))⟩

theorem processStrategy_worked_fields (env : HarvestEnv) (st : LoopState) (s : Address)
    (cfg : HarvestConfiguration) (gas : Nat) (txh : String)
    (hcfg : findConfig env.configs s = some cfg)
    (hwork : env.workable s = .ok true)
    (hcd : (cooldownCheck env st.dumpMap cfg.tokensBeingDumped st.tick).1 = false)
    (hgas : env.estimateGas s = .ok gas)
    (hsubmit : env.work s (gas * 110 / 100) = .ok txh) :
    (processStrategy env st s).lists.worked = st.lists.worked ++ [s]
    ∧ (processStrategy env st s).workLog = st.workLog ++ [(s, gas * 110 / 100)] := by
  simp [processStrategy, hcfg, hwork, hcd, hgas, hsubmit, pushWorked]

theorem harvestLoop_skip (env : HarvestEnv) (l : List Address) (st : LoopState)
    (s : Address) (h : s ∉ l) :
    (harvestLoop env st l).lists.worked.count s = st.lists.worked.count s
    ∧ (harvestLoop env st l).workLog.filter (fun p => p.1 == s)
        = st.workLog.filter (fun p => p.1 == s) := by
  induction l generalizing st with
  | nil => exact ⟨rfl, rfl⟩
  | cons t rest ih =>
    have hts : ¬ t = s := fun hh => h (hh ▸ List.mem_cons_self t rest)
    have hnr : s ∉ rest := fun hh => h (List.mem_cons_of_mem t hh)
    have hunfold : harvestLoop env st (t :: rest)
        = harvestLoop env (processStrategy env st t) rest := rfl
    obtain ⟨hc, hw⟩ := ih (processStrategy env st t) hnr
    rw [hunfold, hc, hw]
    rcases processStrategy_shape env st t with ⟨tk, hp⟩ | hp | ⟨tk, hp⟩ |
        ⟨cfg, gas, _, _, _, hp⟩ <;> rw [hp] <;> constructor <;>
      simp [pushWorked, pushNotWorkable, pushOnCooldown, pushErrored,
        List.count_append, List.count_cons, List.filter_append, hts]

/-- Claim C8: a non-deny-listed strategy occurring once in the job list that is
workable, not on liquidity cooldown when its turn comes, and whose gas estimation and
work submission succeed, is submitted with gas limit `estimatedGas * 110 / 100`
(BigNumber integer arithmetic) and appears exactly once in the worked list, its work
submission being the only log entry for it. -/
theorem C8_work_once_gas (env : HarvestEnv) (s : Address) (l1 l2 : List Address)
    (cfg : HarvestConfiguration) (m0 : List (Address × Nat)) (w0 : List DumpWrite)
    (gas : Nat) (txh : String)
    (hsplit : filteredStrategies env = l1 ++ s :: l2)
    (h1 : s ∉ l1) (h2 : s ∉ l2)
    (hbuild : buildPhase env = .ok (m0, w0))
    (hcfg : findConfig env.configs s = some cfg)
    (hwork : env.workable s = .ok true)
    (hcd : (cooldownCheck env
        (harvestLoop env ⟨0, m0, w0, [], ⟨[], [], [], []⟩⟩ l1).dumpMap
        cfg.tokensBeingDumped
        (harvestLoop env ⟨0, m0, w0, [], ⟨[], [], [], []⟩⟩ l1).tick).1 = false)
    (hgas : env.estimateGas s = .ok gas)
    (hsubmit : env.work s (gas * 110 / 100) = .ok txh) :
    ∃ r, harvestMain env = .ok r
      ∧ r.lists.worked.count s = 1
      ∧ r.workLog.filter (fun p => p.1 == s) = [(s, gas * 110 / 100)] := by
  have hloop : harvestLoop env ⟨0, m0, w0, [], ⟨[], [], [], []⟩⟩ (filteredStrategies env)
      = harvestLoop env
          (processStrategy env (harvestLoop env ⟨0, m0, w0, [], ⟨[], [], [], []⟩⟩ l1) s) l2 := by
    rw [hsplit]
    show List.foldl _ _ (l1 ++ s :: l2) = _
    rw [List.foldl_append, List.foldl_cons]
    rfl
  have hmid := processStrategy_worked_fields env
    (harvestLoop env ⟨0, m0, w0, [], ⟨[], [], [], []⟩⟩ l1) s cfg gas txh
    hcfg hwork hcd hgas hsubmit
  have hpre := harvestLoop_skip env l1 ⟨0, m0, w0, [], ⟨[], [], [], []⟩⟩ s h1
  have hpost := harvestLoop_skip env l2
    (processStrategy env (harvestLoop env ⟨0, m0, w0, [], ⟨[], [], [], []⟩⟩ l1) s) s h2
  refine ⟨⟨(harvestLoop env ⟨0, m0, w0, [], ⟨[], [], [], []⟩⟩ (filteredStrategies env)).lists,
           (harvestLoop env ⟨0, m0, w0, [], ⟨[], [], [], []⟩⟩ (filteredStrategies env)).dumpMap,
           (harvestLoop env ⟨0, m0, w0, [], ⟨[], [], [], []⟩⟩ (filteredStrategies env)).writes,
           (harvestLoop env ⟨0, m0, w0, [], ⟨[], [], [], []⟩⟩ (filteredStrategies env)).workLog⟩,
          by simp only [harvestMain, hbuild], ?_, ?_⟩
  · show (harvestLoop env ⟨0, m0, w0, [], ⟨[], [], [], []⟩⟩
        (filteredStrategies env)).lists.worked.count s = 1
    rw [hloop, hpost.1, hmid.1]
    simp [List.count_append, List.count_cons, hpre.1]
  · show (harvestLoop env ⟨0, m0, w0, [], ⟨[], [], [], []⟩⟩
        (filteredStrategies env)).workLog.filter (fun p => p.1 == s) = [(s, gas * 110 / 100)]
    rw [hloop, hpost.2, hmid.2]
    simp [List.filter_append, hpre.2]

/-- Witness for C8: a single workable strategy with estimated gas 100 is worked once
with gas limit 100 * 110 / 100 = 110. -/
theorem C8_witness :
    ∃ r, harvestMain hEnvWork = .ok r
      ∧ r.lists.worked.count "0xc" = 1
      ∧ r.workLog.filter (fun p => p.1 == "0xc") = [("0xc", 100 * 110 / 100)] :=
  C8_work_once_gas hEnvWork "0xc" [] [] cfgWork [] [] 100 "0xhash"
    rfl (by decide) (by decide) rfl rfl rfl rfl rfl rfl

theorem recordDump_writes_ok (acc : List (Address × Nat) × List DumpWrite) (tok : Address)
    (ts : Nat) (h : ∀ ev ∈ acc.2, okWrite ev) :
    ∀ ev ∈ (recordDump acc tok ts).2, okWrite ev := by
  unfold recordDump
  rcases hl : lookupTs acc.1 tok with _ | cur
  · intro ev hev
    rcases List.mem_append.mp hev with hev | hev
    · exact h ev hev
    · rw [List.mem_singleton.mp hev]
      intro p hp
      exact absurd hp (by simp)
  · dsimp only
    by_cases hlt : cur < ts
    · rw [if_pos hlt]
      intro ev hev
      rcases List.mem_append.mp hev with hev | hev
      · exact h ev hev
      · rw [List.mem_singleton.mp hev]
        intro p hp
        injection hp with hp
        rw [← hp]
        exact le_of_lt hlt
    · rw [if_neg hlt]
      exact h

theorem dumpFold_writes_ok (tokens : List Address)
    (acc : List (Address × Nat) × List DumpWrite) (ts : Nat)
    (h : ∀ ev ∈ acc.2, okWrite ev) :
    ∀ ev ∈ (tokens.foldl (fun a t => recordDump a t ts) acc).2, okWrite ev := by
  induction tokens generalizing acc with
  | nil => exact h
  | cons t rest ih => exact ih _ (recordDump_writes_ok acc t ts h)

theorem buildList_writes_ok (configs : List HarvestConfiguration) (lwa : Address → Nat)
    (l : List Address) (acc : List (Address × Nat) × List DumpWrite)
    (res : List (Address × Nat) × List DumpWrite)
    (hok : buildList configs lwa l acc = .ok res) (h : ∀ ev ∈ acc.2, okWrite ev) :
    ∀ ev ∈ res.2, okWrite ev := by
  induction l generalizing acc with
  | nil =>
    simp only [buildList] at hok
    injection hok with hok
    subst hok
    exact h
  | cons s rest ih =>
    simp only [buildList] at hok
    rcases hc : buildEntry configs acc s (lwa s) with e | acc1
    · rw [hc] at hok; exact absurd hok (by simp)
    · rw [hc] at hok
      refine ih acc1 hok ?_
      unfold buildEntry at hc
      rcases hf : findConfig configs s with _ | cfg
      · rw [hf] at hc; exact absurd hc (by simp)
      · rw [hf] at hc
        injection hc with hc
        subst hc
        exact dumpFold_writes_ok cfg.tokensBeingDumped acc (lwa s) h

theorem cooldownFold_tick (env : HarvestEnv) (m : List (Address × Nat))
    (tokens : List Address) (p : Bool × Nat) :
    (tokens.foldl (cooldownStep env m) p).2 = p.2 + tokens.length := by
  induction tokens generalizing p with
  | nil => simp
  | cons t rest ih =>
    rw [List.foldl_cons, ih]
    show p.2 + 1 + rest.length = _
    rw [List.length_cons]
    omega

theorem cooldownFold_false (env : HarvestEnv) (m : List (Address × Nat))
    (tokens : List Address) (p : Bool × Nat)
    (hres : (tokens.foldl (cooldownStep env m) p).1 = false) :
    p.1 = false ∧ ∀ tok ∈ tokens, ∀ v, lookupTs m tok = some v →
      ∃ t, p.2 ≤ t ∧ t < p.2 + tokens.length
        ∧ (v : Int) < (env.clock t : Int) - rewardDumpedCooldown := by
  induction tokens generalizing p with
  | nil =>
    refine ⟨hres, ?_⟩
    intro tok htok
    simp at htok
  | cons t rest ih =>
    rw [List.foldl_cons] at hres
    obtain ⟨hstep, hall⟩ := ih (cooldownStep env m p t) hres
    have hsplit : (cooldownStep env m p t).1 = false ∧ (cooldownStep env m p t).2 = p.2 + 1 :=
      ⟨hstep, rfl⟩
    have hp1 : p.1 = false := by
      rcases Bool.or_eq_false_iff.mp hsplit.1 with ⟨ha, -⟩
      exact ha
    have hd : (match lookupTs m t with
        | none => false
        | some v => decide ((env.clock p.2 : Int) - rewardDumpedCooldown ≤ (v : Int))) = false := by
      rcases Bool.or_eq_false_iff.mp hsplit.1 with ⟨-, hb⟩
      exact hb
    refine ⟨hp1, ?_⟩
    intro tok htok v hv
    rcases List.mem_cons.mp htok with rfl | htok'
    · rw [hv] at hd
      have : ¬ ((env.clock p.2 : Int) - rewardDumpedCooldown ≤ (v : Int)) := by
        simpa using hd
      exact ⟨p.2, le_refl _, by rw [List.length_cons]; omega, by omega⟩
    · obtain ⟨t', ht1, ht2, ht3⟩ := hall tok htok' v hv
      rw [hsplit.2] at ht1 ht2
      exact ⟨t', by omega, by rw [List.length_cons]; omega, ht3⟩

theorem dumpUpdate_writes_ok (env : HarvestEnv) (tokens : List Address)
    (m : List (Address × Nat)) (w : List DumpWrite) (t0 : Nat)
    (hmono : Monotone env.clock)
    (hfresh : ∀ tok ∈ tokens, ∀ v, lookupTs m tok = some v → v ≤ env.clock t0)
    (hold : ∀ ev ∈ w, okWrite ev) :
    ∀ ev ∈ (dumpUpdate env tokens (m, w, t0)).2.1, okWrite ev := by
  induction tokens generalizing m w t0 with
  | nil => exact hold
  | cons t rest ih =>
    have hstep : dumpUpdate env (t :: rest) (m, w, t0)
        = dumpUpdate env rest
            (setTs m t (env.clock t0), w ++ [⟨t, lookupTs m t, env.clock t0⟩], t0 + 1) := rfl
    rw [hstep]
    refine ih (setTs m t (env.clock t0)) (w ++ [⟨t, lookupTs m t, env.clock t0⟩]) (t0 + 1)
      ?_ ?_
    · intro tok htok v hv
      rw [lookupTs_setTs] at hv
      by_cases he : t = tok
      · rw [if_pos he] at hv
        injection hv with hv
        rw [← hv]
        exact hmono (Nat.le_succ t0)
      · rw [if_neg he] at hv
        exact le_trans (hfresh tok (List.mem_cons_of_mem t htok) v hv)
          (hmono (Nat.le_succ t0))
    · intro ev hev
      rcases List.mem_append.mp hev with hev | hev
      · exact hold ev hev
      · rw [List.mem_singleton.mp hev]
        intro p hp
        exact hfresh t (List.mem_cons_self t rest) p hp

theorem processStrategy_writes_ok (env : HarvestEnv) (st : LoopState) (t : Address)
    (hmono : Monotone env.clock) (h : ∀ ev ∈ st.writes, okWrite ev) :
    ∀ ev ∈ (processStrategy env st t).writes, okWrite ev := by
  rcases processStrategy_shape env st t with ⟨tk, hp⟩ | hp | ⟨tk, hp⟩ |
      ⟨cfg, gas, hcfg, hgas, hcd, hp⟩ <;> rw [hp]
  · exact h
  · exact h
  · exact h
  · obtain ⟨-, hall⟩ := cooldownFold_false env st.dumpMap cfg.tokensBeingDumped
      (false, st.tick) hcd
    refine dumpUpdate_writes_ok env cfg.tokensBeingDumped st.dumpMap st.writes _ hmono ?_ h
    intro tok htok v hv
    obtain ⟨tt, htt1, htt2, htt3⟩ := hall tok htok v hv
    have hend : (cooldownCheck env st.dumpMap cfg.tokensBeingDumped st.tick).2
        = st.tick + cfg.tokensBeingDumped.length :=
      cooldownFold_tick env st.dumpMap cfg.tokensBeingDumped (false, st.tick)
    have hle : env.clock tt
        ≤ env.clock (cooldownCheck env st.dumpMap cfg.tokensBeingDumped st.tick).2 := by
      refine hmono ?_
      omega
    have h150 : (0 : Int) < rewardDumpedCooldown := by decide
    omega

theorem harvestLoop_writes_ok (env : HarvestEnv) (l : List Address) (st : LoopState)
    (hmono : Monotone env.clock) (h : ∀ ev ∈ st.writes, okWrite ev) :
    ∀ ev ∈ (harvestLoop env st l).writes, okWrite ev := by
  induction l generalizing st with
  | nil => exact h
  | cons t rest ih => exact ih _ (processStrategy_writes_ok env st t hmono h)

/-- Claim C9: with a monotone local clock, every write to the per-reward-token last-dump
timestamp map during a run — both the guarded updates of the pre-loop max-construction
and the post-work updates to the current time (which the cooldown gate makes safe) —
stores a value at least as large as the value previously present for that token. -/
theorem C9_timestamps_monotone (env : HarvestEnv) (hmono : Monotone env.clock)
    (r : HarvestResult) (h : harvestMain env = .ok r) :
    ∀ ev ∈ r.writes, ∀ p, ev.previous = some p → p ≤ ev.stored := by
  rcases hb : buildPhase env with e | ⟨m0, w0⟩
  · simp only [harvestMain, hb] at h
    exact Except.noConfusion h
  · simp only [harvestMain, hb] at h
    injection h with h
    subst h
    exact harvestLoop_writes_ok env (filteredStrategies env)
      ⟨0, m0, w0, [], ⟨[], [], [], []⟩⟩ hmono
      (buildList_writes_ok env.configs env.lastWorkAt (filteredStrategies env) ([], [])
        (m0, w0) hb (by simp))

/-- Witness for C9: with a constant clock, the run on `hEnvShared` completes, its write
log satisfies the monotonicity property, and it actually contains a write that replaced
the value 100 by 200. -/
theorem C9_witness :
    ∃ r, harvestMain hEnvShared = .ok r
      ∧ (∀ ev ∈ r.writes, ∀ p, ev.previous = some p → p ≤ ev.stored)
      ∧ DumpWrite.mk "0xtok" (some 100) 200 ∈ r.writes :=
  ⟨_, rfl, C9_timestamps_monotone hEnvShared (by intro a b _; exact Nat.le_refl _) _ rfl,
    by decide⟩
